import Mathlib

/-!
Shallow embedding of the `transactions` repository (src/main.rs,
src/transaction.rs, src/account.rs): a batch ledger replayer that folds a
list of transaction records into per-client accounts, consulting a running
history of previously applied records to settle disputes.

Amounts are `f32` in the source; the spec states all balance properties
"given fixed-point-equivalent arithmetic", so amounts are embedded as `ℚ`
(exact arithmetic). Client and transaction ids (`u16`/`u32`) are embedded
as `ℕ`; no arithmetic is ever performed on them, so no overflow wrapping is
needed. The `HashMap`s of the source are embedded as total functions into
`Option` (empty map = constantly `none`), with insertion as pointwise
update, matching `HashMap::insert` overwrite semantics.
-/

namespace Transactions

/-- Embeds `pub type TransactionID = u32` (src/transaction.rs). -/
abbrev TransactionID := ℕ

/-- Embeds `pub type ClientID = u16` (src/transaction.rs). -/
abbrev ClientID := ℕ

/-- Embeds `pub enum TransactionType` (src/transaction.rs). -/
inductive TransactionType
  | Deposit
  | Withdrawal
  | Dispute
  | Resolve
  | Chargeback
deriving DecidableEq, Repr

/-- Embeds `pub struct Transaction` (src/transaction.rs): a parsed record. -/
structure Transaction where
  ty : TransactionType
  client_id : ClientID
  id : TransactionID
  amount : ℚ
deriving DecidableEq, Repr

/-- Embeds `pub struct Account` (src/account.rs). -/
structure Account where
  available : ℚ
  held : ℚ
  total : ℚ
  locked : Bool
deriving DecidableEq, Repr

/-- Embeds `Account::default()` (the `#[derive(Default)]` of src/account.rs):
all balances zero, not locked. -/
def Account.default : Account := ⟨0, 0, 0, false⟩

/-- Embeds the `HashMap<TransactionID, Transaction>` history of processed
transactions (src/main.rs), as a total function into `Option`. -/
abbrev History := TransactionID → Option Transaction

/-- Embeds `Transaction::process` (src/transaction.rs, lines 59-113): applies
one transaction to one account, given the map of past transactions.

Source, arm by arm:
- Deposit: `available += amount; total += amount`.
- Withdrawal: `result = available - amount; if result > 0.0 then
  available = result; total = result` (note: the source assigns `total`
  the same `result`, it does not subtract from `total`).
- Dispute: if `past_transactions.get(&self.id)` is `Some(t)` then
  `available -= t.amount; held += t.amount`, otherwise nothing.
- Resolve: if the lookup succeeds and the found record's `ty` is `Dispute`
  then `held -= t.amount; available += t.amount`, otherwise nothing.
- Chargeback: if the lookup succeeds and the found record's `ty` is
  `Dispute` then `held -= t.amount; total -= t.amount; locked = true`,
  otherwise nothing. -/
def Transaction.process (self : Transaction) (account : Account)
    (past_transactions : History) : Account :=
  match self.ty with
  | .Deposit =>
      { account with
          available := account.available + self.amount
          total := account.total + self.amount }
  | .Withdrawal =>
      let result := account.available - self.amount
      if result > 0 then
        { account with available := result, total := result }
      else
        account
  | .Dispute =>
      match past_transactions self.id with
      | some transaction =>
          { account with
              available := account.available - transaction.amount
              held := account.held + transaction.amount }
      | none => account
  | .Resolve =>
      match past_transactions self.id with
      | some transaction =>
          if transaction.ty = .Dispute then
            { account with
                held := account.held - transaction.amount
                available := account.available + transaction.amount }
          else
            account
      | none => account
  | .Chargeback =>
      match past_transactions self.id with
      | some transaction =>
          if transaction.ty = .Dispute then
            { account with
                held := account.held - transaction.amount
                total := account.total - transaction.amount
                locked := true }
          else
            account
      | none => account

/-- The mutable state of the `handle_transactions` loop (src/main.rs):
the account map and the history of processed transactions. An absent
client maps to `Account.default`, matching `or_insert_with(Account::default)`
which inserts exactly that value on first reference. -/
structure LedgerState where
  accounts : ClientID → Account
  history : History

/-- The state at the top of `handle_transactions`: both maps empty. -/
def initialState : LedgerState :=
  { accounts := fun _ => Account.default, history := fun _ => none }

/-- Embeds one iteration of the loop in `handle_transactions`
(src/main.rs, lines 42-48): fetch (or default-insert) the client's account,
apply `Transaction::process` with the history as accumulated so far, then
insert the transaction into the history keyed by its id, overwriting any
earlier entry under the same key. -/
def step (s : LedgerState) (transaction : Transaction) : LedgerState :=
  let account := s.accounts transaction.client_id
  let account' := transaction.process account s.history
  { accounts := fun c => if c = transaction.client_id then account' else s.accounts c
    history := fun i => if i = transaction.id then some transaction else s.history i }

/-- Embeds `handle_transactions` (src/main.rs, lines 37-51): fold the
transaction list through `step` and return the final account map. -/
def handle_transactions (transactions : List Transaction) : ClientID → Account :=
  (transactions.foldl step initialState).accounts

/-- The full intermediate states of the fold, for stating properties that
hold after every step. -/
def ledgerStates (transactions : List Transaction) : List LedgerState :=
  transactions.scanl step initialState

/-- Embeds `TryFrom<&str> for TransactionType` (src/transaction.rs): the
five literal lowercase tokens; any other string is an error, embedded as
`none`. -/
def TransactionType.tryFrom (other : String) : Option TransactionType :=
  if other = "deposit" then some .Deposit
  else if other = "withdrawal" then some .Withdrawal
  else if other = "dispute" then some .Dispute
  else if other = "resolve" then some .Resolve
  else if other = "chargeback" then some .Chargeback
  else none

/-- Embeds `str::trim` on the character list of a string: drop whitespace
from both ends. -/
def trimChars (cs : List Char) : List Char :=
  ((cs.dropWhile Char.isWhitespace).reverse.dropWhile Char.isWhitespace).reverse

/-- Embeds `str::trim` (used on every column of a row). -/
def trimString (s : String) : String := String.mk (trimChars s.toList)

/-- Embeds `str::split(',')` on the character list of a line: split at every
comma, keeping empty pieces, always yielding at least one piece. -/
def splitComma : List Char → List (List Char)
  | [] => [[]]
  | c :: cs =>
      if c = ',' then [] :: splitComma cs
      else
        match splitComma cs with
        | piece :: rest => (c :: piece) :: rest
        | [] => [[c]]

/-- Accumulates the value of a run of decimal digit characters, failing on
the first non-digit. Helper for the numeric parses below. -/
def digitsToNat : List Char → ℕ → Option ℕ
  | [], acc => some acc
  | c :: cs, acc =>
      if c.isDigit then digitsToNat cs (acc * 10 + (c.toNat - 48)) else none

/-- Embeds `str::parse` for the unsigned integer types used by the source
(`u16` for client ids, `u32` for transaction ids): an optional leading plus
sign followed by one or more decimal digits, with values at or above
`bound` rejected (integer overflow is a parse error in Rust). -/
def parseUnsigned (bound : ℕ) (s : String) : Option ℕ :=
  let cs :=
    match s.toList with
    | '+' :: rest => rest
    | other => other
  match cs with
  | [] => none
  | _ =>
      if cs.all Char.isDigit then
        match digitsToNat cs 0 with
        | some n => if n < bound then some n else none
        | none => none
      else none

/-- Embeds `parse::<ClientID>`, i.e. `parse::<u16>` (src/transaction.rs). -/
def parseU16 (s : String) : Option ℕ := parseUnsigned (2 ^ 16) s

/-- Embeds `parse::<TransactionID>`, i.e. `parse::<u32>` (src/transaction.rs). -/
def parseU32 (s : String) : Option ℕ := parseUnsigned (2 ^ 32) s

/-- Embeds `str::parse::<f32>` (used by `Transaction::parse` for the amount
column), restricted to the plain decimal literals the input format carries:
an optional sign, then either one or more digits with an optional fractional
part, or a fractional part alone. The numeric value is taken exactly, as a
rational, in line with the fixed-point reading of amounts used throughout
this embedding. Any string outside this grammar is non-numeric input and
yields `none`, which `Transaction.parse` replaces by 0, mirroring the
source's `unwrap_or(0.0)`. -/
def parseDecimal (s : String) : Option ℚ :=
  let signed : Bool × List Char :=
    match s.toList with
    | '-' :: rest => (true, rest)
    | '+' :: rest => (false, rest)
    | other => (false, other)
  let neg := signed.1
  let body := signed.2
  let intPart := body.takeWhile Char.isDigit
  let rest := body.dropWhile Char.isDigit
  let value : Option ℚ :=
    match rest with
    | [] =>
        if intPart.isEmpty then none
        else
          match digitsToNat intPart 0 with
          | some n => some (n : ℚ)
          | none => none
    | '.' :: fracPart =>
        if fracPart.all Char.isDigit then
          if intPart.isEmpty && fracPart.isEmpty then none
          else
            match digitsToNat intPart 0, digitsToNat fracPart 0 with
            | some i, some f => some ((i : ℚ) + (f : ℚ) / (10 : ℚ) ^ fracPart.length)
            | _, _ => none
        else none
    | _ => none
  value.map fun v => if neg then -v else v

/-- Decidable equality for parse results, so that concrete parses can be
settled by evaluation. -/
instance {ε α : Type} [DecidableEq ε] [DecidableEq α] : DecidableEq (Except ε α) :=
  fun a b =>
    match a, b with
    | .ok x, .ok y => decidable_of_iff (x = y) (by simp)
    | .error x, .error y => decidable_of_iff (x = y) (by simp)
    | .ok _, .error _ => isFalse (by simp)
    | .error _, .ok _ => isFalse (by simp)

/-- Embeds the column-consuming body of `Transaction::parse`
(src/transaction.rs, lines 17-56), applied to the column list produced by
splitting the line on commas: a blank (empty after trimming) type column
means the row is skipped (`ok none`); a missing or unrecognized type,
client id or transaction id column is a hard error; a missing amount
column falls back to the string `0` and an unparsable amount value falls
back to the number 0. -/
def parseColumns (columns : List String) : Except String (Option Transaction) :=
  match columns with
  | [] => Except.error "no transaction type"
  | typeStr :: rest =>
      let trimmedType := trimString typeStr
      if trimmedType = "" then Except.ok none
      else
        match TransactionType.tryFrom trimmedType with
        | none => Except.error "invalid transaction type"
        | some ty =>
            match rest with
            | [] => Except.error "no client ID"
            | clientStr :: rest2 =>
                match parseU16 (trimString clientStr) with
                | none => Except.error "invalid client ID"
                | some client_id =>
                    match rest2 with
                    | [] => Except.error "no transaction ID"
                    | txStr :: rest3 =>
                        match parseU32 (trimString txStr) with
                        | none => Except.error "invalid transaction ID"
                        | some id =>
                            let amountStr := rest3.headD "0"
                            let amount := (parseDecimal (trimString amountStr)).getD 0
                            Except.ok (some ⟨ty, client_id, id, amount⟩)

/-- Embeds `Transaction::parse` (src/transaction.rs): split the input line
on commas with `splitComma` and consume the columns in order. -/
def Transaction.parse (input : String) : Except String (Option Transaction) :=
  parseColumns ((splitComma input.toList).map String.mk)

/-- Replay input for claim C1: two deposits, a dispute of the second (so 5
is held), then a withdrawal of 3 while funds are held. -/
def c1_input : List Transaction :=
  [⟨.Deposit, 1, 1, 10⟩, ⟨.Deposit, 1, 2, 5⟩, ⟨.Dispute, 1, 2, 0⟩,
   ⟨.Withdrawal, 1, 3, 3⟩]

/-- Replay input for claim C2: deposit of 10 under tx 7, then a dispute and
a resolve referencing tx 7. -/
def c2_input : List Transaction :=
  [⟨.Deposit, 1, 7, 10⟩, ⟨.Dispute, 1, 7, 0⟩, ⟨.Resolve, 1, 7, 0⟩]

/-- Replay input for claim C3, the records of the end-to-end scenario
deposit,10,2,99.9999 then dispute,10,2 then chargeback,10,2. -/
def c3_input : List Transaction :=
  [⟨.Deposit, 10, 2, 999999 / 10000⟩, ⟨.Dispute, 10, 2, 0⟩,
   ⟨.Chargeback, 10, 2, 0⟩]

/-- Replay input for claim C10: client 1 deposits 10 under tx 5, then
client 2 disputes tx 5. -/
def c10_input : List Transaction :=
  [⟨.Deposit, 1, 5, 10⟩, ⟨.Dispute, 2, 5, 0⟩]

/-! Theorems. -/

/-- Claim C8: processing a Deposit always succeeds, on any account state
including a locked one, adding the amount to both available and total and
leaving held and locked untouched. -/
theorem C8_deposit_always_succeeds (a : Account) (h : History) (c : ClientID)
    (T : TransactionID) (A : ℚ) :
    Transaction.process ⟨.Deposit, c, T, A⟩ a h =
      { available := a.available + A, held := a.held,
        total := a.total + A, locked := a.locked } :=
  rfl

/-- Claim C4: a withdrawal with amount equal to available is rejected with
no mutation; a withdrawal with amount strictly below available commits and
leaves available at its previous value minus the amount; any candidate at
or below zero is rejected, so the boundary is strict. -/
theorem C4_withdrawal_boundary (a : Account) (h : History) (c : ClientID)
    (T : TransactionID) (A : ℚ) :
    (A = a.available → Transaction.process ⟨.Withdrawal, c, T, A⟩ a h = a) ∧
    (A < a.available →
      Transaction.process ⟨.Withdrawal, c, T, A⟩ a h =
        { a with available := a.available - A, total := a.available - A }) ∧
    (a.available - A ≤ 0 → Transaction.process ⟨.Withdrawal, c, T, A⟩ a h = a) := by
  refine ⟨?_, ?_, ?_⟩ <;> intro hA
  · simp [Transaction.process, hA]
  · simp [Transaction.process, sub_pos, hA]
  · simp [Transaction.process, not_lt.mpr hA]

/-- Witness for C4: withdrawing exactly the 10 available is a no-op, and
withdrawing 3 of the 10 available leaves 7 available. -/
theorem C4_withdrawal_boundary_witness :
    Transaction.process ⟨.Withdrawal, 1, 1, 10⟩ ⟨10, 0, 10, false⟩ (fun _ => none)
        = ⟨10, 0, 10, false⟩ ∧
    Transaction.process ⟨.Withdrawal, 1, 2, 3⟩ ⟨10, 0, 10, false⟩ (fun _ => none)
        = ⟨10 - 3, 0, 10 - 3, false⟩ :=
  ⟨(C4_withdrawal_boundary ⟨10, 0, 10, false⟩ (fun _ => none) 1 1 10).1 (by norm_num),
   (C4_withdrawal_boundary ⟨10, 0, 10, false⟩ (fun _ => none) 1 2 3).2.1 (by norm_num)⟩

/-- Claim C5: a Dispute, Resolve or Chargeback whose transaction id is
absent from the history returns normally and leaves the account unchanged
in every field. -/
theorem C5_unknown_tx_noop (a : Account) (h : History) (t : Transaction)
    (habs : h t.id = none)
    (hty : t.ty = .Dispute ∨ t.ty = .Resolve ∨ t.ty = .Chargeback) :
    t.process a h = a := by
  obtain ⟨ty, cid, id, am⟩ := t
  rcases hty with h1 | h1 | h1 <;> simp_all [Transaction.process]

/-- Witness for C5: a Dispute referencing id 42 against an empty history
leaves a concrete account unchanged. -/
theorem C5_unknown_tx_noop_witness :
    Transaction.process ⟨.Dispute, 1, 42, 0⟩ ⟨5, 0, 5, false⟩ (fun _ => none)
      = ⟨5, 0, 5, false⟩ :=
  C5_unknown_tx_noop ⟨5, 0, 5, false⟩ (fun _ => none) ⟨.Dispute, 1, 42, 0⟩ rfl
    (Or.inl rfl)

/-- Claim C7: only Chargeback can change the locked flag (every other kind
leaves it as it was), no operation clears it, and along any replay fold a
locked account stays locked at every subsequent step. -/
theorem C7_locked_monotone :
    (∀ (t : Transaction) (a : Account) (h : History),
      t.ty ≠ .Chargeback → (t.process a h).locked = a.locked) ∧
    (∀ (t : Transaction) (a : Account) (h : History),
      a.locked = true → (t.process a h).locked = true) ∧
    (∀ (ts : List Transaction) (s : LedgerState) (c : ClientID),
      (s.accounts c).locked = true →
      ((ts.foldl step s).accounts c).locked = true) := by
  have hmono : ∀ (t : Transaction) (a : Account) (h : History),
      a.locked = true → (t.process a h).locked = true := by
    intro t a h ha
    obtain ⟨ty, cid, id, am⟩ := t
    cases ty <;> simp only [Transaction.process] <;> (repeat' split) <;>
      simp_all
  refine ⟨?_, hmono, ?_⟩
  · intro t a h hne
    obtain ⟨ty, cid, id, am⟩ := t
    cases ty <;> simp only [Transaction.process] <;> (repeat' split) <;>
      simp_all
  · intro ts
    induction ts with
    | nil => intro s c hc; simpa using hc
    | cons t rest ih =>
        intro s c hc
        rw [List.foldl_cons]
        apply ih
        simp only [step]
        by_cases hcc : c = t.client_id
        · simp only [hcc, if_pos rfl]
          exact hmono t _ s.history (by rw [← hcc]; exact hc)
        · simpa [hcc] using hc

/-- Witness for C7: a Deposit on an unlocked account leaves it unlocked, a
Deposit on a locked account leaves it locked, and folding a Deposit over a
state whose client-1 account is locked keeps it locked. -/
theorem C7_locked_monotone_witness :
    (Transaction.process ⟨.Deposit, 1, 1, 5⟩ ⟨0, 0, 0, false⟩ (fun _ => none)).locked
        = (⟨0, 0, 0, false⟩ : Account).locked ∧
    (Transaction.process ⟨.Deposit, 1, 1, 5⟩ ⟨0, 0, 0, true⟩ (fun _ => none)).locked
        = true ∧
    ((([⟨.Deposit, 1, 2, 5⟩] : List Transaction).foldl step
        { accounts := fun _ => ⟨0, 0, 0, true⟩, history := fun _ => none }).accounts 1).locked
        = true :=
  ⟨C7_locked_monotone.1 ⟨.Deposit, 1, 1, 5⟩ ⟨0, 0, 0, false⟩ (fun _ => none)
      (by simp),
   C7_locked_monotone.2.1 ⟨.Deposit, 1, 1, 5⟩ ⟨0, 0, 0, true⟩ (fun _ => none) rfl,
   C7_locked_monotone.2.2 [⟨.Deposit, 1, 2, 5⟩]
      { accounts := fun _ => ⟨0, 0, 0, true⟩, history := fun _ => none } 1 rfl⟩

/-- Claim C6: each step of the replay fold applies the record against the
history as accumulated before it, then stores the record under its own
transaction id, overwriting whatever was there; hence a Dispute record
replaces the Deposit stored under the same id, and a Resolve or Chargeback
finding a stored Dispute record moves that record's own amount. -/
theorem C6_history_insertion_overwrite :
    (∀ (s : LedgerState) (t : Transaction),
      (step s t).history t.id = some t ∧
      (step s t).accounts t.client_id =
        t.process (s.accounts t.client_id) s.history ∧
      ∀ k, k ≠ t.id → (step s t).history k = s.history k) ∧
    (∀ (s : LedgerState) (c c' : ClientID) (T : TransactionID) (A : ℚ),
      (step (step s ⟨.Deposit, c, T, A⟩) ⟨.Dispute, c', T, 0⟩).history T =
        some ⟨.Dispute, c', T, 0⟩) ∧
    (∀ (a : Account) (h : History) (r : Transaction) (c : ClientID)
        (T : TransactionID), h T = some r → r.ty = .Dispute →
      Transaction.process ⟨.Resolve, c, T, 0⟩ a h =
        { a with available := a.available + r.amount,
                 held := a.held - r.amount } ∧
      Transaction.process ⟨.Chargeback, c, T, 0⟩ a h =
        { a with held := a.held - r.amount, total := a.total - r.amount,
                 locked := true }) := by
  refine ⟨?_, ?_, ?_⟩
  · intro s t
    refine ⟨by simp [step], by simp [step], ?_⟩
    intro k hk
    simp [step, hk]
  · intro s c c' T A
    simp [step]
  · intro a h r c T hT hty
    constructor <;> simp [Transaction.process, hT, hty]

/-- Witness for C6: a Resolve finding a stored Dispute record of amount 0
adds and removes 0. -/
theorem C6_history_insertion_overwrite_witness :
    Transaction.process ⟨.Resolve, 1, 7, 0⟩ ⟨0, 10, 10, false⟩
        (fun i => if i = 7 then some ⟨.Dispute, 1, 7, 0⟩ else none) =
      ⟨0 + 0, 10 - 0, 10, false⟩ :=
  (C6_history_insertion_overwrite.2.2 ⟨0, 10, 10, false⟩
      (fun i => if i = 7 then some ⟨.Dispute, 1, 7, 0⟩ else none)
      ⟨.Dispute, 1, 7, 0⟩ 1 7 rfl rfl).1

/-- Claim C10: the Dispute arm consults only the stored record's amount,
never comparing client ids, so a dispute referencing another client's
transaction is honored against the disputing record's own client account;
concretely, client 1 deposits 10 under tx 5 and client 2 disputes tx 5,
moving 10 out of client 2's available into its held while client 1's
account is untouched. -/
theorem C10_cross_client_dispute :
    (∀ (a : Account) (h : History) (r : Transaction) (c : ClientID)
        (T : TransactionID), h T = some r →
      Transaction.process ⟨.Dispute, c, T, 0⟩ a h =
        { a with available := a.available - r.amount,
                 held := a.held + r.amount }) ∧
    handle_transactions c10_input 2 = ⟨-10, 10, 0, false⟩ ∧
    handle_transactions c10_input 1 = ⟨10, 0, 10, false⟩ := by
  refine ⟨?_, ?_, ?_⟩
  · intro a h r c T hT
    simp [Transaction.process, hT]
  · simp [handle_transactions, c10_input, step, Transaction.process,
      initialState, Account.default]
  · simp [handle_transactions, c10_input, step, Transaction.process,
      initialState, Account.default]

/-- Witness for C10: the general dispute rule applied to client 2 disputing
client 1's stored deposit of 10. -/
theorem C10_cross_client_dispute_witness :
    Transaction.process ⟨.Dispute, 2, 5, 0⟩ Account.default
        (fun i => if i = 5 then some ⟨.Deposit, 1, 5, 10⟩ else none) =
      { Account.default with available := Account.default.available - 10,
                             held := Account.default.held + 10 } :=
  C10_cross_client_dispute.1 Account.default
    (fun i => if i = 5 then some ⟨.Deposit, 1, 5, 10⟩ else none)
    ⟨.Deposit, 1, 5, 10⟩ 2 5 rfl

/-- Claim C1 (code bug evidence): the invariant total = available + held
fails on the code. After deposits of 10 and 5, a dispute of the second
deposit (so 5 is held) and a successful withdrawal of 3, the withdrawal arm
assigns total the new available, ignoring held: the final account is
available 7, held 5, total 7, where the invariant requires total 12. -/
theorem C1_invariant_fails_on_held_withdrawal :
    handle_transactions c1_input 1 = ⟨7, 5, 7, false⟩ ∧
    (handle_transactions c1_input 1).total ≠
      (handle_transactions c1_input 1).available +
        (handle_transactions c1_input 1).held := by
  have hval : handle_transactions c1_input 1 = ⟨7, 5, 7, false⟩ := by
    simp [handle_transactions, c1_input, step, Transaction.process,
      initialState, Account.default]
    norm_num
  refine ⟨hval, ?_⟩
  rw [hval]
  norm_num

/-- Counterexample to claim C2: after deposit of 10 under tx 7, dispute of
tx 7 and resolve of tx 7, the account holds available 0 and held 10, while
the pre-dispute state (right after the deposit) had available 10 and
held 0 — the round trip does not restore the pre-dispute state. -/
theorem C2_roundtrip_counterexample :
    handle_transactions [⟨.Deposit, 1, 7, 10⟩] 1 = ⟨10, 0, 10, false⟩ ∧
    handle_transactions c2_input 1 = ⟨0, 10, 10, false⟩ ∧
    (handle_transactions c2_input 1).available ≠
      (handle_transactions [⟨.Deposit, 1, 7, 10⟩] 1).available := by
  refine ⟨?_, ?_, ?_⟩ <;>
    simp [handle_transactions, c2_input, step, Transaction.process,
      initialState, Account.default]

/-- Claim C2 as amended: in the replay fold, Deposit(T, A) then Dispute(T)
then Resolve(T) leaves total unchanged throughout, but the Resolve finds
the stored Dispute record (amount 0) rather than the deposit, so it moves
nothing: available ends A below and held ends A above their pre-dispute
values, and the third state equals the second. -/
theorem C2_roundtrip_amended (s : LedgerState) (c : ClientID)
    (T : TransactionID) (A : ℚ) :
    let s1 := step s ⟨.Deposit, c, T, A⟩
    let s2 := step s1 ⟨.Dispute, c, T, 0⟩
    let s3 := step s2 ⟨.Resolve, c, T, 0⟩
    (s2.accounts c).available = (s1.accounts c).available - A ∧
    (s2.accounts c).held = (s1.accounts c).held + A ∧
    (s3.accounts c).available = (s1.accounts c).available - A ∧
    (s3.accounts c).held = (s1.accounts c).held + A ∧
    (s2.accounts c).total = (s1.accounts c).total ∧
    (s3.accounts c).total = (s1.accounts c).total ∧
    s3.accounts c = s2.accounts c := by
  simp [step, Transaction.process]

/-- Counterexample to claim C3: on the records deposit,10,2,99.9999 then
dispute,10,2 then chargeback,10,2 the code yields account 10 with
available 0, held 99.9999, total 99.9999 and locked true — not the claimed
available 99.9999, held 0, total 0: the Chargeback finds the stored Dispute
record (amount 0) and removes nothing. -/
theorem C3_chargeback_counterexample :
    handle_transactions c3_input 10 =
      ⟨0, 999999 / 10000, 999999 / 10000, true⟩ ∧
    (handle_transactions c3_input 10).available ≠ 999999 / 10000 ∧
    (handle_transactions c3_input 10).held ≠ 0 ∧
    (handle_transactions c3_input 10).total ≠ 0 := by
  have hval : handle_transactions c3_input 10 =
      ⟨0, 999999 / 10000, 999999 / 10000, true⟩ := by
    simp [handle_transactions, c3_input, step, Transaction.process,
      initialState, Account.default]
  refine ⟨hval, ?_, ?_, ?_⟩ <;> rw [hval] <;> norm_num

/-- Claim C3 as amended: Deposit(T, A) then Dispute(T) then Chargeback(T)
leaves held A above its pre-dispute value (the disputed A is not removed),
total equal to its pre-dispute value, available A below its pre-dispute
value, and locked true; a subsequent Resolve or second Chargeback on T
finds the stored Chargeback record, whose kind is not Dispute, and leaves
the account unchanged. -/
theorem C3_chargeback_amended (s : LedgerState) (c : ClientID)
    (T : TransactionID) (A : ℚ) :
    let s1 := step s ⟨.Deposit, c, T, A⟩
    let s2 := step s1 ⟨.Dispute, c, T, 0⟩
    let s3 := step s2 ⟨.Chargeback, c, T, 0⟩
    (s3.accounts c).held = (s1.accounts c).held + A ∧
    (s3.accounts c).total = (s1.accounts c).total ∧
    (s3.accounts c).available = (s1.accounts c).available - A ∧
    (s3.accounts c).locked = true ∧
    (step s3 ⟨.Resolve, c, T, 0⟩).accounts c = s3.accounts c ∧
    (step s3 ⟨.Chargeback, c, T, 0⟩).accounts c = s3.accounts c := by
  simp [step, Transaction.process]

/-- Claim C9: given a row whose type, client and transaction id columns
parse, a missing amount column or an amount column that fails the numeric
parse yields a transaction whose amount is 0, and the row parse still
succeeds. -/
theorem C9_tolerant_amount_parse (tyStr cStr txStr amtStr : String)
    (ty : TransactionType) (cid tid : ℕ)
    (hblank : trimString tyStr ≠ "")
    (hty : TransactionType.tryFrom (trimString tyStr) = some ty)
    (hc : parseU16 (trimString cStr) = some cid)
    (htx : parseU32 (trimString txStr) = some tid)
    (hbad : parseDecimal (trimString amtStr) = none) :
    parseColumns [tyStr, cStr, txStr] = Except.ok (some ⟨ty, cid, tid, 0⟩) ∧
    parseColumns [tyStr, cStr, txStr, amtStr] =
      Except.ok (some ⟨ty, cid, tid, 0⟩) := by
  have hzero : parseDecimal (trimString "0") = some 0 := by decide
  constructor <;> simp [parseColumns, hblank, hty, hc, htx, hbad, hzero]

/-- Witness for C9: the dispute row with no amount column parses with
amount 0, and a deposit row with the non-numeric amount abc parses with
amount 0. -/
theorem C9_tolerant_amount_parse_witness :
    parseColumns ["dispute", "5", "101"] =
      Except.ok (some ⟨.Dispute, 5, 101, 0⟩) ∧
    parseColumns ["deposit", "5", "100", "abc"] =
      Except.ok (some ⟨.Deposit, 5, 100, 0⟩) :=
  ⟨(C9_tolerant_amount_parse "dispute" "5" "101" "x" .Dispute 5 101
      (by decide) (by decide) (by decide) (by decide) (by decide)).1,
   (C9_tolerant_amount_parse "deposit" "5" "100" "abc" .Deposit 5 100
      (by decide) (by decide) (by decide) (by decide) (by decide)).2⟩

end Transactions
